import Mathlib

/-!
Verification development for the site-collection engine of the repository
(source file `src/js/state/siteUtil.js`). The JavaScript module manages an
ordered list of "site" records (history entries, bookmarks, bookmark folders)
with pure list-in/list-out operations. This file is a shallow embedding of
that module: Immutable.js lists become `List Site`, records become the `Site`
structure with `Option` fields for possibly-absent attributes, JavaScript
truthiness is made explicit, and the two recursive functions (`removeSite` and
`getAncestorFolderIds`), which recurse through parent links of the encoded
tree and can diverge in JavaScript on cyclic data, are given explicit fuel
chosen large enough to agree with the JavaScript on all acyclic inputs.

External collaborators that are not part of the analyzed source are modelled
from the specification and marked as such in their doc comments: the tag
constants of `siteTags.js`, the settings read of `filterOutNonRecents`
(passed as an explicit parameter), the wall clock read of `mergeSiteDetails`
(passed as an explicit parameter), and the URL parser of Node's `url` module
used by `getOrigin`.
-/

namespace SiteUtil

/-- Tag values attached to site records. Modelled from the spec: the constant
module `siteTags.js` is not part of the analyzed source; spec section 6 says
the core treats tags as an externally defined set of opaque, equatable enum
values {BOOKMARK, BOOKMARK_FOLDER, PINNED, ...}, so the membership and
equality tests the source performs on tag strings are modelled as equality
tests on the values of this inductive (with `other` covering the open-ended
remainder of the enumeration). -/
inductive Tag where
  | bookmark
  | bookmarkFolder
  | pinned
  | other (n : Nat)
deriving Repr, DecidableEq

/-- One site record, as stored in the application state list. Fields that a
JavaScript record may simply lack are `Option`; JavaScript `null` for
`lastAccessedTime` is identified with absence (`none`), which the source never
distinguishes from `undefined` for that field. -/
structure Site where
  location : Option String := none
  title : Option String := none
  customTitle : Option String := none
  tags : List Tag := []
  lastAccessedTime : Option Nat := none
  count : Option Nat := none
  folderId : Option Nat := none
  parentFolderId : Option Nat := none
  partitionNumber : Option Nat := none
  favicon : Option String := none
  themeColor : Option String := none
deriving Repr, DecidableEq

/-- Truthiness of an optional JavaScript number: `0`, `null` and `undefined`
are falsy. -/
def natTruthy : Option Nat → Bool
  | some n => n != 0
  | none => false

/-- Truthiness of an optional JavaScript string: the empty string, `null` and
`undefined` are falsy. -/
def strTruthy : Option String → Bool
  | some s => s != ("")
  | none => false

/-- Evaluation of the JavaScript idiom `x || 0` on an optional number. -/
def jsOrZero : Option Nat → Nat
  | some n => n
  | none => 0

/-- Evaluation of the JavaScript idiom `x || d` on an optional number with a
numeric default: a present but zero value still falls back to the default. -/
def jsOrElseNat : Option Nat → Nat → Nat
  | some n, d => if n = 0 then d else n
  | none, d => d

/-- Embedding of `isBookmark` of siteUtil.js applied to a record tag list:
`tags.includes(siteTags.BOOKMARK)`. -/
def isBookmark (tags : List Tag) : Bool := tags.contains Tag.bookmark

/-- Embedding of `isBookmarkFolder` of siteUtil.js applied to a record tag
list: `tags.includes(siteTags.BOOKMARK_FOLDER)`. -/
def isBookmarkFolder (tags : List Tag) : Bool := tags.contains Tag.bookmarkFolder

/-- Embedding of `isBookmark` of siteUtil.js applied to a single optional tag
argument (the source then compares the tag string against the BOOKMARK
constant; with tags modelled as opaque enum values this is equality). -/
def isBookmarkTag (tag : Option Tag) : Bool := tag == some Tag.bookmark

/-- Embedding of `isBookmarkFolder` of siteUtil.js applied to a single
optional tag argument (`typeof tags === 'string' && tags ===
siteTags.BOOKMARK_FOLDER`). -/
def isBookmarkFolderTag (tag : Option Tag) : Bool := tag == some Tag.bookmarkFolder

/-- Embedding of `Array.prototype.findIndex` / Immutable `findIndex`,
returning `none` instead of `-1` when no element matches. -/
def jsFindIndex {α : Type} : List α → (α → Bool) → Option Nat
  | [], _ => none
  | x :: xs, p => if p x then some 0 else (jsFindIndex xs p).map (· + 1)

/-- Embedding of `getSiteIndex` (siteUtil.js lines 36-44): folders are looked
up by `folderId`, everything else by `(location, partitionNumber || 0)`. -/
def getSiteIndex (sites : List Site) (siteDetail : Site) (tags : Option Tag) : Option Nat :=
  if isBookmarkFolderTag tags then
    jsFindIndex sites (fun site =>
      isBookmarkFolder site.tags && site.folderId == siteDetail.folderId)
  else
    jsFindIndex sites (fun site =>
      site.location == siteDetail.location &&
      jsOrZero site.partitionNumber == jsOrZero siteDetail.partitionNumber)

/-- Embedding of the comparator of `getNextFolderIdItem` (lines 61-75),
specialized to how Immutable `max` consumes it: `max` keeps the current best
`a` and replaces it by the candidate `b` exactly when `comparator(b, a)`
coerces to a value greater than `0`. Equal folder ids (including both absent)
compare equal, an absent candidate id never wins, an absent current id always
loses, and otherwise the larger id wins. -/
def folderIdGt (siteB siteA : Site) : Bool :=
  if siteB.folderId == siteA.folderId then false
  else
    match siteB.folderId, siteA.folderId with
    | none, _ => false
    | some _, none => true
    | some b, some a => decide (a < b)

/-- Embedding of `getNextFolderIdItem` (lines 61-75): Immutable `max` reduces
the collection with the first element as the seed and returns `undefined` on
an empty collection. -/
def getNextFolderIdItem (sites : List Site) : Option Site :=
  match sites with
  | [] => none
  | x :: xs => some (xs.foldl (fun best cand => if folderIdGt cand best then cand else best) x)

/-- Embedding of `getNextFolderId` (lines 77-84) for a present sites list:
`(maxIdItem ? (maxIdItem.get('folderId') || 0) : 0) + 1`. -/
def getNextFolderId (sites : List Site) : Nat :=
  (match getNextFolderIdItem sites with
   | some item => jsOrZero item.folderId
   | none => 0) + 1

/-- Embedding of `tags.toSet().add(tag).toList()`: deduplicate keeping first
occurrences, then append the tag if it is not already present. -/
def jsSetAdd (tags : List Tag) (tag : Tag) : List Tag :=
  let distinct := tags.eraseDups
  if distinct.contains tag then distinct else distinct ++ [tag]

/-- Embedding of `tags.toSet().remove(tag).toList()`: deduplicate keeping
first occurrences, then drop the tag. -/
def jsSetRemove (tags : List Tag) (tag : Tag) : List Tag :=
  tags.eraseDups.filter (fun t => t != tag)

/-- Embedding of `mergeSiteDetails` (lines 88-142). The single wall-clock
read `new Date().getTime()` is passed in as the explicit parameter `now`. -/
def mergeSiteDetails (oldSiteDetail : Option Site) (newSiteDetail : Site)
    (tag : Option Tag) (folderId : Option Nat) (now : Nat) : Site :=
  let oldTags := match oldSiteDetail with
    | some old => old.tags
    | none => []
  let tags := match tag with
    | some t => jsSetAdd oldTags t
    | none => oldTags
  let customTitle : Option String := match newSiteDetail.customTitle with
    | some s => some s
    | none => match oldSiteDetail with
      | some old => old.customTitle
      | none => none
  let lastAccessedTime :=
    if isBookmarkTag tag || isBookmarkFolderTag tag then
      jsOrZero newSiteDetail.lastAccessedTime
    else
      jsOrElseNat newSiteDetail.lastAccessedTime now
  let parentFolderId : Option Nat := match newSiteDetail.parentFolderId with
    | some p => some p
    | none => match oldSiteDetail with
      | some old => if natTruthy old.parentFolderId then old.parentFolderId else none
      | none => none
  let partitionNumber : Option Nat := match newSiteDetail.partitionNumber with
    | some p => some p
    | none => match oldSiteDetail with
      | some old => if natTruthy old.partitionNumber then old.partitionNumber else none
      | none => none
  let favicon : Option String :=
    if strTruthy newSiteDetail.favicon then newSiteDetail.favicon
    else match oldSiteDetail with
      | some old => if strTruthy old.favicon then old.favicon else none
      | none => none
  let themeColor : Option String :=
    if strTruthy newSiteDetail.themeColor then newSiteDetail.themeColor
    else match oldSiteDetail with
      | some old => if strTruthy old.themeColor then old.themeColor else none
      | none => none
  let count : Option Nat :=
    if tags.isEmpty then
      some ((match oldSiteDetail with
        | some old => jsOrZero old.count
        | none => 0) + 1)
    else none
  { location := if strTruthy newSiteDetail.location then newSiteDetail.location else none
    title := newSiteDetail.title
    customTitle := customTitle
    tags := tags
    lastAccessedTime := some lastAccessedTime
    count := count
    folderId := if natTruthy folderId then folderId else none
    parentFolderId := parentFolderId
    partitionNumber := partitionNumber
    favicon := favicon
    themeColor := themeColor }

/-- Embedding of `removeSite` (lines 200-230) with explicit fuel. The
JavaScript recursion follows `parentFolderId` links of the encoded tree and
diverges only on cyclic folder structures; on acyclic inputs every recursion
path is strictly shorter than the fuel supplied by the `removeSite` wrapper
below, so the two agree. The `index` and `tags` of the matched record are
captured from the incoming list before the cascade mutates it, exactly as in
the source. -/
def removeSiteF : Nat → List Site → Site → Option Tag → List Site
  | 0, sites, _, _ => sites
  | fuel + 1, sites, siteDetail, tag =>
    match getSiteIndex sites siteDetail tag with
    | none => sites
    | some index =>
      let tags := match sites[index]? with
        | some site => site.tags
        | none => []
      let sites1 :=
        if isBookmarkFolder tags then
          let folderId := match sites[index]? with
            | some site => site.folderId
            | none => none
          let childSites := sites.filter (fun site => site.parentFolderId == folderId)
          childSites.foldl
            (fun acc child =>
              child.tags.foldl (fun acc2 childTag => removeSiteF fuel acc2 child (some childTag)) acc)
            sites
        else sites
      if tags.isEmpty && tag.isNone then
        sites1.eraseIdx index
      else if !tags.isEmpty && tag.isNone then
        match sites1[index]? with
        | some site => sites1.set index { site with lastAccessedTime := none }
        | none => sites1
      else
        match tag with
        | some t =>
          match sites1[index]? with
          | some site =>
            sites1.set index
              { site with
                  parentFolderId := some 0
                  customTitle := none
                  tags := jsSetRemove tags t }
          | none => sites1
        | none => sites1

/-- Total number of tag occurrences across a site list, used to bound the
recursion depth of `removeSite`. -/
def totalTags (sites : List Site) : Nat :=
  sites.foldl (fun acc site => acc + site.tags.length) 0

/-- Fuel supplied to `removeSiteF`: enough for every acyclic input. -/
def removeFuel (sites : List Site) : Nat :=
  sites.length + totalTags sites + 1

/-- Embedding of `removeSite` (lines 200-230). -/
def removeSite (sites : List Site) (siteDetail : Site) (tag : Option Tag) : List Site :=
  removeSiteF (removeFuel sites) sites siteDetail tag

/-- Embedding of `addSite` (lines 159-191). The wall-clock read of the inner
merge is the explicit parameter `now`; a `tagArg` of `none` models calling the
function without a tag argument, in which case the source takes the first tag
of the new site detail. -/
def addSite (sites : List Site) (siteDetail : Site) (tagArg : Option Tag)
    (originalSiteDetail : Option Site) (now : Nat) : List Site :=
  let tag := match tagArg with
    | none => siteDetail.tags.head?
    | some t => some t
  let index := getSiteIndex sites (originalSiteDetail.getD siteDetail) tag
  let oldSite := match index with
    | some i => sites[i]?
    | none => none
  let folderId0 := siteDetail.folderId
  let stage :=
    if tag == some Tag.bookmarkFolder then
      if oldSite.isNone && natTruthy folderId0 then
        match sites.find? (fun site =>
            isBookmarkFolder site.tags &&
            site.parentFolderId == siteDetail.parentFolderId &&
            site.customTitle == siteDetail.customTitle) with
        | some dupFolder => (removeSite sites dupFolder (some Tag.bookmarkFolder), folderId0)
        | none => (sites, folderId0)
      else if !natTruthy folderId0 then
        (sites, some (getNextFolderId sites))
      else
        (sites, folderId0)
    else (sites, folderId0)
  let site := mergeSiteDetails oldSite siteDetail tag stage.2 now
  match index with
  | none => stage.1 ++ [site]
  | some i => stage.1.set i site

/-- Embedding of `getAncestorFolderIds` (lines 236-244) with explicit fuel.
The JavaScript walks `parentFolderId` links upward, accumulating each truthy
parent id, and diverges only on cyclic folder structures; `isMoveAllowed`
supplies fuel exceeding the list length, which suffices on acyclic inputs. -/
def getAncestorFolderIds : Nat → Site → List Site → List Nat
  | 0, _, _ => []
  | fuel + 1, bookmarkFolder, allBookmarks =>
    if natTruthy bookmarkFolder.parentFolderId then
      let parent := jsOrZero bookmarkFolder.parentFolderId
      parent ::
        (match allBookmarks.find? (fun item => item.folderId == some parent) with
         | some nextItem => getAncestorFolderIds fuel nextItem allBookmarks
         | none => [])
    else []

/-- Embedding of `isMoveAllowed` (lines 253-267). -/
def isMoveAllowed (sites : List Site) (sourceDetail destinationDetail : Site) : Bool :=
  if destinationDetail.parentFolderId.isSome && sourceDetail.folderId.isSome then
    if sourceDetail.folderId == destinationDetail.folderId then false
    else
      let ancestorFolderIds := getAncestorFolderIds (sites.length + 1) destinationDetail sites
      if ancestorFolderIds.contains (jsOrZero sourceDetail.folderId) then false
      else true
  else true

/-- Sort key used by `filterOutNonRecents`: `site.get('lastAccessedTime') || 0`. -/
def recentKey (site : Site) : Nat := jsOrZero site.lastAccessedTime

/-- Ordering used by `filterOutNonRecents`: descending by `recentKey`, the
relational reading of the numeric comparator
`(site2.lastAccessedTime || 0) - (site1.lastAccessedTime || 0)`. -/
def recentRel (site1 site2 : Site) : Prop := recentKey site2 ≤ recentKey site1

instance : DecidableRel recentRel :=
  fun site1 site2 => Nat.decLe (recentKey site2) (recentKey site1)

instance : IsTotal Site recentRel :=
  ⟨fun site1 site2 => Nat.le_total (recentKey site2) (recentKey site1)⟩

instance : IsTrans Site recentRel :=
  ⟨fun _ _ _ h12 h23 => Nat.le_trans h23 h12⟩

/-- Embedding of `filterOutNonRecents` (lines 480-488). The externally
configured history size (`getSetting(settings.AUTOCOMPLETE_HISTORY_SIZE)`) is
the explicit parameter `autocompleteHistorySize`. The Immutable sort by the
numeric comparator `(b.lastAccessedTime || 0) - (a.lastAccessedTime || 0)` is
modelled as a stable insertion sort by descending key; the comparator leaves
the order of tied keys unspecified in JavaScript, and the theorem about this
function only relies on sortedness, membership and the cap. -/
def filterOutNonRecents (autocompleteHistorySize : Nat) (sites : List Site) : List Site :=
  let sitesWithTags := sites.filter (fun site => !site.tags.isEmpty)
  let topHistorySites :=
    (List.insertionSort recentRel
        (sites.filter (fun site => site.tags.isEmpty))).take autocompleteHistorySize
  sitesWithTags ++ topHistorySites

/-- Result of URL parsing, with empty host and protocol identified with
absence (both are falsy in the JavaScript truthiness tests of `getOrigin`). -/
structure UrlParts where
  protocol : Option String := none
  host : Option String := none
  slashes : Bool := false
deriving Repr, DecidableEq

/-- Decision of whether the second character list starts the first, used to
model the JavaScript `String.prototype.startsWith`. -/
def leadsWith : List Char → List Char → Bool
  | _, [] => true
  | [], _ :: _ => false
  | c :: cs, d :: ds => c == d && leadsWith cs ds

/-- Embedding of `location.startsWith(...)` from `getOrigin`. -/
def jsStartsWith (s pattern : String) : Bool := leadsWith s.data pattern.data

/-- Split of a character list at the first occurrence of a separator,
returning the parts before and after it, or nothing when the separator does
not occur. -/
def breakOnSep (sep : List Char) : List Char → Option (List Char × List Char)
  | [] => none
  | c :: cs =>
    if leadsWith (c :: cs) sep then some ([], (c :: cs).drop sep.length)
    else match breakOnSep sep cs with
      | some (before, after) => some (c :: before, after)
      | none => none

/-- Modelled from the spec: Node's `url.parse`, which siteUtil.js imports and
which is not part of the analyzed source. Per spec section 4.4 the parser
exposes the scheme and the host-with-optional-port of a URL; here a URL with a
`://` separator yields its scheme (with trailing colon) and its authority up
to the first path, query or fragment delimiter, and any other string yields no
host, so that `getOrigin` returns null for it. -/
def urlParse (location : String) : UrlParts :=
  match breakOnSep ([(':'), ('/'), ('/')]) location.data with
  | some (schemeChars, restChars) =>
    let authority := restChars.takeWhile (fun c => c != ('/') && c != ('?') && c != ('#'))
    { protocol := if schemeChars.isEmpty then none
        else some (String.mk schemeChars ++ (":"))
      host := if authority.isEmpty then none else some (String.mk authority)
      slashes := true }
  | none => { protocol := none, host := none, slashes := false }

/-- JavaScript value passed to `getOrigin`, which type-checks its input. -/
inductive JsVal where
  | str (s : String)
  | num (n : Int)
  | boolean (b : Bool)
  | nullVal
  | undef
deriving Repr, DecidableEq

/-- Embedding of `getOrigin` (lines 544-558): non-strings map to null,
`file://` locations map to the constant `file:///`, and other locations map to
scheme plus host when the parse produces both, else null. -/
def getOrigin (location : JsVal) : Option String :=
  match location with
  | JsVal.str s =>
    if jsStartsWith s ("file://") then some ("file:///")
    else
      let parsed := urlParse s
      match parsed.host, parsed.protocol with
      | some host, some protocol =>
        some (if parsed.slashes then protocol ++ ("//") ++ host else protocol ++ host)
      | _, _ => none
  | _ => none

/-- Number of folder records in a list carrying a given
`(parentFolderId, customTitle)` pair, used to state the folder-uniqueness
claim. -/
def countFoldersWithPair (sites : List Site) (parentId : Nat) (titleText : String) : Nat :=
  (sites.filter (fun site =>
    isBookmarkFolder site.tags &&
    site.parentFolderId == some parentId &&
    site.customTitle == some titleText)).length

/-- Sample folder record used by concrete witnesses. -/
def sampleFolder : Site :=
  { tags := [Tag.bookmarkFolder], folderId := some 1, customTitle := some ("folder") }

/-- Sample tag-less history record living inside `sampleFolder`. -/
def sampleChildA : Site :=
  { location := some ("https://a"), parentFolderId := some 1 }

/-- Second sample tag-less history record living inside `sampleFolder`. -/
def sampleChildB : Site :=
  { location := some ("https://b"), parentFolderId := some 1 }

/-- Sample bookmark record used by concrete witnesses. -/
def sampleBookmark : Site :=
  { location := some ("https://x"), tags := [Tag.bookmark],
    lastAccessedTime := some 9, customTitle := some ("bm") }

/-- Sample history record used by concrete witnesses. -/
def sampleHistory : Site :=
  { location := some ("https://y"), lastAccessedTime := some 10 }

/-- Sample top-level folder of the chain used by the move-guard witness. -/
def sampleFolderA : Site := { tags := [Tag.bookmarkFolder], folderId := some 1 }

/-- Sample middle folder of the chain used by the move-guard witness. -/
def sampleFolderB : Site :=
  { tags := [Tag.bookmarkFolder], folderId := some 2, parentFolderId := some 1 }

/-- Sample leaf folder of the chain used by the move-guard witness. -/
def sampleFolderC : Site :=
  { tags := [Tag.bookmarkFolder], folderId := some 3, parentFolderId := some 2 }

/-- Sample list for the recents filter witness: five tag-less records with
distinct access times plus one bookmark. -/
def sampleRecentsList : List Site :=
  [{ location := some ("https://r1"), lastAccessedTime := some 10 },
   sampleBookmark,
   { location := some ("https://r2"), lastAccessedTime := some 30 },
   { location := some ("https://r3"), lastAccessedTime := some 20 },
   { location := some ("https://r4"), lastAccessedTime := some 50 },
   { location := some ("https://r5"), lastAccessedTime := some 40 }]

/-! Helper lemmas about the embedded primitives. -/

theorem jsFindIndex_eq_none_iff {α : Type} (l : List α) (p : α → Bool) :
    jsFindIndex l p = none ↔ ∀ x ∈ l, p x = false := by
  induction l with
  | nil => simp [jsFindIndex]
  | cons x xs ih =>
    by_cases hx : p x
    · simp [jsFindIndex, hx]
    · simp only [Bool.not_eq_true] at hx
      simp [jsFindIndex, hx, ih]

theorem jsFindIndex_append_singleton {α : Type} (l : List α) (p : α → Bool) (y : α)
    (h : jsFindIndex l p = none) (hy : p y = true) :
    jsFindIndex (l ++ [y]) p = some l.length := by
  induction l with
  | nil => simp [jsFindIndex, hy]
  | cons x xs ih =>
    simp only [jsFindIndex] at h
    by_cases hx : p x
    · rw [if_pos hx] at h
      exact absurd h (by simp)
    · rw [if_neg hx] at h
      have htail : jsFindIndex xs p = none := by
        cases ho : jsFindIndex xs p with
        | none => rfl
        | some j => rw [ho] at h; simp at h
      rw [List.cons_append]
      simp only [jsFindIndex, if_neg hx, ih htail]
      simp [List.length_cons]

theorem jsFindIndex_some_get {α : Type} (l : List α) (p : α → Bool) (i : Nat)
    (h : jsFindIndex l p = some i) :
    ∃ x, l[i]? = some x ∧ p x = true := by
  induction l generalizing i with
  | nil => simp [jsFindIndex] at h
  | cons x xs ih =>
    simp only [jsFindIndex] at h
    by_cases hx : p x
    · rw [if_pos hx] at h
      have h0 : i = 0 := by
        have := h
        simp at this
        omega
      subst h0
      exact ⟨x, by simp, hx⟩
    · rw [if_neg hx] at h
      cases ho : jsFindIndex xs p with
      | none => rw [ho] at h; simp at h
      | some j =>
        rw [ho] at h
        simp at h
        obtain ⟨x2, hx2, hp2⟩ := ih j ho
        refine ⟨x2, ?_, hp2⟩
        rw [← h]
        simpa using hx2

theorem jsFindIndex_set_self {α : Type} (l : List α) (p : α → Bool) (i : Nat) (y : α)
    (h : jsFindIndex l p = some i) (hy : p y = true) :
    jsFindIndex (l.set i y) p = some i := by
  induction l generalizing i with
  | nil => simp [jsFindIndex] at h
  | cons x xs ih =>
    simp only [jsFindIndex] at h
    by_cases hx : p x
    · rw [if_pos hx] at h
      have h0 : i = 0 := by simp at h; omega
      subst h0
      simp [List.set, jsFindIndex, hy]
    · rw [if_neg hx] at h
      cases ho : jsFindIndex xs p with
      | none => rw [ho] at h; simp at h
      | some j =>
        rw [ho] at h
        simp at h
        subst h
        show jsFindIndex (x :: xs.set j y) p = some (j + 1)
        simp [jsFindIndex, hx, ih j ho]

theorem two_le_length_of_mem_ne {α : Type} {l : List α} {a b : α}
    (ha : a ∈ l) (hb : b ∈ l) (hne : a ≠ b) : 2 ≤ l.length := by
  cases l with
  | nil => simp at ha
  | cons x xs =>
    cases xs with
    | nil =>
      simp at ha hb
      exact absurd (ha.trans hb.symm) hne
    | cons y ys =>
      simp only [List.length_cons]
      omega

theorem folderIdGt_step (best cand : Site) :
    jsOrZero best.folderId ≤ jsOrZero (if folderIdGt cand best then cand else best).folderId ∧
    jsOrZero cand.folderId ≤ jsOrZero (if folderIdGt cand best then cand else best).folderId := by
  cases hc : cand.folderId with
  | none =>
    have hgt : folderIdGt cand best = false := by
      cases hb : best.folderId <;> simp [folderIdGt, hc, hb]
    simp [hgt, jsOrZero, hc]
  | some c =>
    cases hb : best.folderId with
    | none =>
      have hgt : folderIdGt cand best = true := by simp [folderIdGt, hc, hb]
      simp [hgt, jsOrZero, hc, hb]
    | some b =>
      by_cases hcb : c = b
      · have hgt : folderIdGt cand best = false := by simp [folderIdGt, hc, hb, hcb]
        simp [hgt, jsOrZero, hc, hb, hcb]
      · by_cases hlt : b < c
        · have hgt : folderIdGt cand best = true := by simp [folderIdGt, hc, hb, hcb, hlt]
          simp [hgt, jsOrZero, hc, hb]
          omega
        · have hgt : folderIdGt cand best = false := by simp [folderIdGt, hc, hb, hcb, hlt]
          simp [hgt, jsOrZero, hc, hb]
          omega

theorem foldBest_ge_start (x : Site) (xs : List Site) :
    jsOrZero x.folderId ≤
      jsOrZero ((xs.foldl (fun best cand => if folderIdGt cand best then cand else best) x).folderId) := by
  induction xs generalizing x with
  | nil => simp
  | cons y ys ih =>
    simp only [List.foldl_cons]
    exact le_trans (folderIdGt_step x y).1 (ih _)

theorem foldBest_mem (x : Site) (xs : List Site) :
    xs.foldl (fun best cand => if folderIdGt cand best then cand else best) x ∈ x :: xs := by
  induction xs generalizing x with
  | nil => simp
  | cons y ys ih =>
    simp only [List.foldl_cons]
    rcases List.mem_cons.mp (ih (if folderIdGt y x then y else x)) with h1 | h1
    · by_cases hgt : folderIdGt y x
      · rw [if_pos hgt] at h1 ⊢
        rw [h1]
        exact List.mem_cons_of_mem _ (List.mem_cons_self _ _)
      · rw [if_neg hgt] at h1 ⊢
        rw [h1]
        exact List.mem_cons_self _ _
    · exact List.mem_cons_of_mem _ (List.mem_cons_of_mem _ h1)

theorem foldBest_ge (x : Site) (xs : List Site) :
    ∀ site ∈ x :: xs, ∀ f, site.folderId = some f →
      f ≤ jsOrZero ((xs.foldl (fun best cand => if folderIdGt cand best then cand else best) x).folderId) := by
  induction xs generalizing x with
  | nil =>
    intro site hmem f hf
    have hx : site = x := by simpa using hmem
    subst hx
    simp [hf, jsOrZero]
  | cons y ys ih =>
    intro site hmem f hf
    simp only [List.foldl_cons]
    rcases List.mem_cons.mp hmem with rfl | hmem2
    · calc f = jsOrZero site.folderId := by simp [hf, jsOrZero]
        _ ≤ jsOrZero (if folderIdGt y site then y else site).folderId := (folderIdGt_step site y).1
        _ ≤ _ := foldBest_ge_start _ ys
    · rcases List.mem_cons.mp hmem2 with rfl | hmem3
      · calc f = jsOrZero site.folderId := by simp [hf, jsOrZero]
          _ ≤ jsOrZero (if folderIdGt site x then site else x).folderId := (folderIdGt_step x site).2
          _ ≤ _ := foldBest_ge_start _ ys
      · exact ih _ site (List.mem_cons_of_mem _ hmem3) f hf

/-! Claim theorems. -/

/-- C3: `getNextFolderId` returns an integer strictly greater than every
`folderId` present on any record in the list, and returns exactly 1 when the
list is empty or contains no record with a `folderId`. -/
theorem getNextFolderId_spec (sites : List Site) :
    (∀ site ∈ sites, ∀ f, site.folderId = some f → f < getNextFolderId sites) ∧
    ((∀ site ∈ sites, site.folderId = none) → getNextFolderId sites = 1) := by
  constructor
  · intro site hmem f hf
    cases sites with
    | nil => simp at hmem
    | cons x xs =>
      have h := foldBest_ge x xs site hmem f hf
      have heq : getNextFolderId (x :: xs) =
          jsOrZero ((xs.foldl (fun best cand => if folderIdGt cand best then cand else best) x).folderId)
            + 1 := rfl
      omega
  · intro hall
    cases sites with
    | nil => rfl
    | cons x xs =>
      have hz := hall _ (foldBest_mem x xs)
      have heq : getNextFolderId (x :: xs) =
          jsOrZero ((xs.foldl (fun best cand => if folderIdGt cand best then cand else best) x).folderId)
            + 1 := rfl
      rw [heq, hz]
      rfl

/-- Witness for C3: concrete instances of both conjuncts. -/
theorem getNextFolderId_spec_witness :
    3 < getNextFolderId [{ folderId := some 3 }] ∧
    getNextFolderId [({} : Site)] = 1 :=
  ⟨(getNextFolderId_spec [{ folderId := some 3 }]).1 _ (List.mem_singleton.mpr rfl) 3 rfl,
   (getNextFolderId_spec [({} : Site)]).2
     (by intro site hs; rw [List.mem_singleton.mp hs])⟩

/-- C8: in `mergeSiteDetails`, when the supplied tag is BOOKMARK or
BOOKMARK_FOLDER, the resulting record's `lastAccessedTime` equals the new
partial's `lastAccessedTime` if that is truthy and 0 otherwise; for any other
(or absent) tag, it equals the new partial's `lastAccessedTime` if truthy and
the current wall-clock time otherwise. -/
theorem mergeSiteDetails_lastAccessedTime (oldSiteDetail : Option Site) (newSiteDetail : Site)
    (tag : Option Tag) (folderId : Option Nat) (now : Nat) :
    (mergeSiteDetails oldSiteDetail newSiteDetail tag folderId now).lastAccessedTime =
      some (if tag = some Tag.bookmark ∨ tag = some Tag.bookmarkFolder then
              (if natTruthy newSiteDetail.lastAccessedTime then
                jsOrZero newSiteDetail.lastAccessedTime else 0)
            else
              (if natTruthy newSiteDetail.lastAccessedTime then
                jsOrZero newSiteDetail.lastAccessedTime else now)) := by
  have h1 : jsOrZero newSiteDetail.lastAccessedTime =
      if natTruthy newSiteDetail.lastAccessedTime then
        jsOrZero newSiteDetail.lastAccessedTime else 0 := by
    cases ho : newSiteDetail.lastAccessedTime with
    | none => rfl
    | some n => by_cases hn : n = 0 <;> simp [natTruthy, jsOrZero, hn]
  have h2 : jsOrElseNat newSiteDetail.lastAccessedTime now =
      if natTruthy newSiteDetail.lastAccessedTime then
        jsOrZero newSiteDetail.lastAccessedTime else now := by
    cases ho : newSiteDetail.lastAccessedTime with
    | none => rfl
    | some n => by_cases hn : n = 0 <;> simp [natTruthy, jsOrZero, jsOrElseNat, hn]
  by_cases hb : tag = some Tag.bookmark ∨ tag = some Tag.bookmarkFolder
  · have hbb : (isBookmarkTag tag || isBookmarkFolderTag tag) = true := by
      rcases hb with h | h <;> simp [isBookmarkTag, isBookmarkFolderTag, h]
    show some (if isBookmarkTag tag || isBookmarkFolderTag tag then
        jsOrZero newSiteDetail.lastAccessedTime
      else jsOrElseNat newSiteDetail.lastAccessedTime now) = _
    rw [hbb, if_pos hb]
    simp only [if_true]
    exact congrArg some h1
  · have hbb : (isBookmarkTag tag || isBookmarkFolderTag tag) = false := by
      simp only [isBookmarkTag, isBookmarkFolderTag]
      push_neg at hb
      rcases htag : tag with _ | t
      · simp
      · rw [htag] at hb
        have h3 : t ≠ Tag.bookmark := fun h => hb.1 (by rw [h])
        have h4 : t ≠ Tag.bookmarkFolder := fun h => hb.2 (by rw [h])
        simp [h3, h4]
    show some (if isBookmarkTag tag || isBookmarkFolderTag tag then
        jsOrZero newSiteDetail.lastAccessedTime
      else jsOrElseNat newSiteDetail.lastAccessedTime now) = _
    rw [hbb, if_neg hb, if_neg Bool.false_ne_true]
    exact congrArg some h2

/-- C6: `getOrigin` maps the example URL to its scheme-host-port origin, maps
every `file://` string to the constant `file:///`, maps every non-string to
null, and maps every string whose parse lacks a host or a protocol to null. -/
theorem getOrigin_spec :
    getOrigin (JsVal.str ("https://example.com:8080/path")) = some ("https://example.com:8080") ∧
    (∀ s : String, jsStartsWith s ("file://") = true →
      getOrigin (JsVal.str s) = some ("file:///")) ∧
    (∀ v : JsVal, (∀ s : String, v ≠ JsVal.str s) → getOrigin v = none) ∧
    (∀ s : String, jsStartsWith s ("file://") = false →
      (urlParse s).host = none ∨ (urlParse s).protocol = none →
      getOrigin (JsVal.str s) = none) := by
  refine ⟨?_, ?_, ?_, ?_⟩
  · decide
  · intro s hs
    show (if jsStartsWith s ("file://") then some ("file:///") else _) = some ("file:///")
    rw [hs]
    rfl
  · intro v hv
    cases v with
    | str s => exact absurd rfl (hv s)
    | num n => rfl
    | boolean b => rfl
    | nullVal => rfl
    | undef => rfl
  · intro s hs hnone
    show (if jsStartsWith s ("file://") then some ("file:///")
      else match (urlParse s).host, (urlParse s).protocol with
        | some host, some protocol =>
          some (if (urlParse s).slashes then protocol ++ ("//") ++ host else protocol ++ host)
        | _, _ => none) = none
    rw [hs, if_neg Bool.false_ne_true]
    rcases hnone with h | h
    · rw [h]
    · rw [h]
      cases hh : (urlParse s).host <;> rfl

/-- Witness for C6: the remaining spec examples, obtained from the theorem at
concrete inputs. -/
theorem getOrigin_spec_witness :
    getOrigin (JsVal.str ("file:///Users/x")) = some ("file:///") ∧
    getOrigin (JsVal.num 42) = none ∧
    getOrigin (JsVal.str ("mailto:someone")) = none :=
  ⟨getOrigin_spec.2.1 ("file:///Users/x") (by decide),
   getOrigin_spec.2.2.1 (JsVal.num 42) (by intro s h; simp at h),
   getOrigin_spec.2.2.2 ("mailto:someone") (by decide) (Or.inl (by decide))⟩

/-- C9: calling `removeSite` with no tag on a non-folder target whose stored
record has a non-empty tag set nulls that record's `lastAccessedTime` and
changes nothing else: the result is exactly the input list with the record at
the found index replaced by the same record with `lastAccessedTime` cleared,
so every other field and every other record is untouched and the length is
preserved. -/
theorem removeSite_noTag_softClear (sites : List Site) (siteDetail : Site) (i : Nat) (s : Site)
    (hidx : getSiteIndex sites siteDetail none = some i)
    (hget : sites[i]? = some s)
    (hnf : isBookmarkFolder s.tags = false)
    (hne : s.tags ≠ []) :
    removeSite sites siteDetail none = sites.set i { s with lastAccessedTime := none } ∧
    (removeSite sites siteDetail none).length = sites.length := by
  have hie : s.tags.isEmpty = false := by
    cases hts : s.tags with
    | nil => exact absurd hts hne
    | cons a as => rfl
  have hmain : removeSite sites siteDetail none =
      sites.set i { s with lastAccessedTime := none } := by
    show removeSiteF (sites.length + totalTags sites + 1) sites siteDetail none = _
    simp only [removeSiteF, hidx, hget, hnf, hie]
    simp [hget]
  exact ⟨hmain, by rw [hmain, List.length_set]⟩

/-- Witness for C9: soft-clearing a concrete bookmark next to a history
record. -/
theorem removeSite_noTag_softClear_witness :
    removeSite [sampleBookmark, sampleHistory] sampleBookmark none =
      [sampleBookmark, sampleHistory].set 0 { sampleBookmark with lastAccessedTime := none } ∧
    (removeSite [sampleBookmark, sampleHistory] sampleBookmark none).length =
      ([sampleBookmark, sampleHistory] : List Site).length :=
  removeSite_noTag_softClear [sampleBookmark, sampleHistory] sampleBookmark 0 sampleBookmark
    (by decide) rfl (by decide) (by decide)

/-- C10: with a non-null requested tag and a non-folder target, `removeSite`
never deletes a record: the output has the same length as the input, and when
the lookup finds a record it is retained in place with the requested tag
stripped, `parentFolderId` reset to 0 and `customTitle` cleared. -/
theorem removeSite_withTag_keepsLength (sites : List Site) (siteDetail : Site) (t : Tag)
    (hnf : ∀ i s, getSiteIndex sites siteDetail (some t) = some i →
      sites[i]? = some s → isBookmarkFolder s.tags = false) :
    (removeSite sites siteDetail (some t)).length = sites.length ∧
    (∀ i s, getSiteIndex sites siteDetail (some t) = some i → sites[i]? = some s →
      removeSite sites siteDetail (some t) =
        sites.set i { s with parentFolderId := some 0, customTitle := none,
                             tags := jsSetRemove s.tags t }) := by
  cases hidx : getSiteIndex sites siteDetail (some t) with
  | none =>
    constructor
    · show (removeSiteF (sites.length + totalTags sites + 1) sites siteDetail (some t)).length = _
      simp only [removeSiteF, hidx]
    · intro i s hi
      simp at hi
  | some i =>
    cases hget : sites[i]? with
    | none =>
      have hmain : removeSite sites siteDetail (some t) = sites := by
        show removeSiteF (sites.length + totalTags sites + 1) sites siteDetail (some t) = _
        simp only [removeSiteF, hidx, hget]
        simp [isBookmarkFolder, hget]
      constructor
      · rw [hmain]
      · intro i2 s hi2 hg2
        have hii : i = i2 := by simpa using hi2
        subst hii
        rw [hget] at hg2
        simp at hg2
    | some s =>
      have hfs := hnf i s hidx hget
      have hmain : removeSite sites siteDetail (some t) =
          sites.set i { s with parentFolderId := some 0, customTitle := none,
                               tags := jsSetRemove s.tags t } := by
        show removeSiteF (sites.length + totalTags sites + 1) sites siteDetail (some t) = _
        simp only [removeSiteF, hidx, hget, hfs]
        simp [hget]
      constructor
      · rw [hmain, List.length_set]
      · intro i2 s2 hi2 hg2
        have hii : i = i2 := by simpa using hi2
        subst hii
        rw [hget] at hg2
        have hss : s2 = s := by simpa using hg2.symm
        subst hss
        exact hmain

/-- Witness for C10: stripping the bookmark tag from a concrete bookmark. -/
theorem removeSite_withTag_keepsLength_witness :
    (removeSite [sampleBookmark, sampleHistory] sampleBookmark (some Tag.bookmark)).length =
      ([sampleBookmark, sampleHistory] : List Site).length :=
  (removeSite_withTag_keepsLength [sampleBookmark, sampleHistory] sampleBookmark Tag.bookmark
    (by
      intro i s hi hg
      have h0 : getSiteIndex [sampleBookmark, sampleHistory] sampleBookmark
          (some Tag.bookmark) = some 0 := by decide
      rw [h0] at hi
      have hii : i = 0 := by simpa using hi.symm
      subst hii
      have hs : s = sampleBookmark := by simpa using hg.symm
      subst hs
      decide)).1

/-- C1 counterexample: on a list holding a folder and two history-tagged
children (records whose `parentFolderId` equals the folder's `folderId`),
removing the folder does not shorten the list by three; the cascade only
re-removes each child's tags (here none) and the folder itself is merely
stripped of its folder tag, so all three records survive. -/
theorem removeSite_folder_cascade_cex :
    (removeSite
        [{ tags := [Tag.bookmarkFolder], folderId := some 1, customTitle := some ("f") },
         { location := some ("a"), parentFolderId := some 1 },
         { location := some ("b"), parentFolderId := some 1 }]
        ({ tags := [Tag.bookmarkFolder], folderId := some 1, customTitle := some ("f") })
        (some Tag.bookmarkFolder)).length ≠
      ([{ tags := [Tag.bookmarkFolder], folderId := some 1, customTitle := some ("f") },
        { location := some ("a"), parentFolderId := some 1 },
        { location := some ("b"), parentFolderId := some 1 }] : List Site).length - 3 := by
  decide

/-- C1 amended: removing a folder (looked up by the BOOKMARK_FOLDER tag) from
a list holding the folder and two tag-less history children deletes nothing:
the cascade re-removes each child's tags, of which there are none, and the
folder itself is retained with the folder tag stripped, `parentFolderId`
reset to 0 and `customTitle` cleared, so the resulting list keeps all three
records. -/
theorem removeSite_folder_cascade_strips (F child1 child2 : Site) (f : Nat)
    (hF : isBookmarkFolder F.tags = true)
    (hFid : F.folderId = some f)
    (hFp : F.parentFolderId ≠ some f)
    (hc1p : child1.parentFolderId = some f) (hc2p : child2.parentFolderId = some f)
    (hc1t : child1.tags = []) (hc2t : child2.tags = []) :
    removeSite [F, child1, child2] F (some Tag.bookmarkFolder) =
      [{ F with parentFolderId := some 0, customTitle := none,
                tags := jsSetRemove F.tags Tag.bookmarkFolder }, child1, child2] ∧
    (removeSite [F, child1, child2] F (some Tag.bookmarkFolder)).length = 3 := by
  have hFne : F.tags ≠ [] := by
    intro h
    rw [h] at hF
    exact absurd hF (by decide)
  have hie : F.tags.isEmpty = false := by
    cases hts : F.tags with
    | nil => exact absurd hts hFne
    | cons a as => rfl
  have hFpb : (F.parentFolderId == F.folderId) = false := by
    rw [hFid]
    exact beq_eq_false_iff_ne.mpr hFp
  have hidx : getSiteIndex [F, child1, child2] F (some Tag.bookmarkFolder) = some 0 := by
    simp [getSiteIndex, isBookmarkFolderTag, jsFindIndex, hF]
  have hc1pb : (child1.parentFolderId == F.folderId) = true := by
    rw [hFid, hc1p]
    exact beq_self_eq_true _
  have hc2pb : (child2.parentFolderId == F.folderId) = true := by
    rw [hFid, hc2p]
    exact beq_self_eq_true _
  have hmain : removeSite [F, child1, child2] F (some Tag.bookmarkFolder) =
      [{ F with parentFolderId := some 0, customTitle := none,
                tags := jsSetRemove F.tags Tag.bookmarkFolder }, child1, child2] := by
    show removeSiteF (([F, child1, child2] : List Site).length
        + totalTags [F, child1, child2] + 1) [F, child1, child2] F (some Tag.bookmarkFolder) = _
    simp only [removeSiteF, hidx]
    simp [hF, hie, hFpb, hc1pb, hc2pb, hc1t, hc2t]
  exact ⟨hmain, by rw [hmain]; rfl⟩

/-- Witness for C1 amended: the concrete folder with two concrete tag-less
children. -/
theorem removeSite_folder_cascade_strips_witness :
    removeSite [sampleFolder, sampleChildA, sampleChildB] sampleFolder (some Tag.bookmarkFolder) =
      [{ sampleFolder with
          parentFolderId := some 0
          customTitle := none
          tags := jsSetRemove sampleFolder.tags Tag.bookmarkFolder },
        sampleChildA, sampleChildB] ∧
    (removeSite [sampleFolder, sampleChildA, sampleChildB] sampleFolder
        (some Tag.bookmarkFolder)).length = 3 :=
  removeSite_folder_cascade_strips sampleFolder sampleChildA sampleChildB 1
    (by decide) (by decide) (by decide) (by decide) (by decide) rfl rfl

theorem getAncestorFolderIds_succ (fuel : Nat) (bookmarkFolder : Site) (allBookmarks : List Site) :
    getAncestorFolderIds (fuel + 1) bookmarkFolder allBookmarks =
      if natTruthy bookmarkFolder.parentFolderId then
        jsOrZero bookmarkFolder.parentFolderId ::
          (match allBookmarks.find? (fun item =>
              item.folderId == some (jsOrZero bookmarkFolder.parentFolderId)) with
           | some nextItem => getAncestorFolderIds fuel nextItem allBookmarks
           | none => [])
      else [] := rfl

/-- C2: for a folder chain A, B, C encoded in the list (C inside B, B inside
A, A top-level), `isMoveAllowed` forbids moving A into C and allows moving C
into A; and a move whose source is not a folder or whose destination has no
numeric `parentFolderId` is always allowed. -/
theorem isMoveAllowed_spec :
    (∀ (sites : List Site) (A B C : Site) (a b c : Nat),
      A.folderId = some a → B.folderId = some b → C.folderId = some c →
      B.parentFolderId = some a → C.parentFolderId = some b →
      (A.parentFolderId = none ∨ A.parentFolderId = some 0) →
      a ≠ 0 → b ≠ 0 → a ≠ b → a ≠ c →
      sites.find? (fun site => site.folderId == some b) = some B →
      sites.find? (fun site => site.folderId == some a) = some A →
      isMoveAllowed sites A C = false ∧ isMoveAllowed sites C A = true) ∧
    (∀ (sites : List Site) (src dst : Site),
      src.folderId = none ∨ dst.parentFolderId = none →
      isMoveAllowed sites src dst = true) := by
  constructor
  · intro sites A B C a b c hA hB hC hBp hCp hAp ha0 hb0 hab hac hfB hfA
    have hntb : natTruthy (some b) = true := by simp [natTruthy, hb0]
    have hnta : natTruthy (some a) = true := by simp [natTruthy, ha0]
    have hABne : A ≠ B := by
      intro h
      rw [h, hB] at hA
      exact hab (by simpa using hA.symm)
    have hlen : 2 ≤ sites.length :=
      two_le_length_of_mem_ne (List.mem_of_find?_eq_some hfA)
        (List.mem_of_find?_eq_some hfB) hABne
    obtain ⟨n, hn⟩ : ∃ n, sites.length = n + 2 := ⟨sites.length - 2, by omega⟩
    have hanc : getAncestorFolderIds (sites.length + 1) C sites = [b, a] := by
      rw [hn]
      rw [getAncestorFolderIds_succ (n + 2) C sites, hCp]
      simp only [hntb, if_true, jsOrZero]
      simp only [hfB]
      have step2 : getAncestorFolderIds (n + 2) B sites =
          getAncestorFolderIds ((n + 1) + 1) B sites := rfl
      rw [step2, getAncestorFolderIds_succ (n + 1) B sites, hBp]
      simp only [hnta, if_true, jsOrZero]
      simp only [hfA]
      rw [getAncestorFolderIds_succ n A sites]
      rcases hAp with h | h <;> simp [h, natTruthy]
    have hanc0 : getAncestorFolderIds (sites.length + 1) A sites = [] := by
      rw [getAncestorFolderIds_succ sites.length A sites]
      rcases hAp with h | h <;> simp [h, natTruthy]
    constructor
    · simp [isMoveAllowed, hCp, hA, hC, hanc, jsOrZero, hac]
    · rcases hApd : A.parentFolderId with _ | pa
      · simp [isMoveAllowed, hApd]
      · simp [isMoveAllowed, hApd, hC, hA, hanc0, jsOrZero, Ne.symm hac]
  · intro sites src dst h
    rcases h with h | h <;> simp [isMoveAllowed, h]

/-- Witness for C2: the concrete three-folder chain plus a concrete non-folder
move. -/
theorem isMoveAllowed_spec_witness :
    (isMoveAllowed [sampleFolderA, sampleFolderB, sampleFolderC] sampleFolderA sampleFolderC
        = false ∧
     isMoveAllowed [sampleFolderA, sampleFolderB, sampleFolderC] sampleFolderC sampleFolderA
        = true) ∧
    isMoveAllowed [sampleFolderA] sampleHistory sampleFolderA = true :=
  ⟨isMoveAllowed_spec.1 [sampleFolderA, sampleFolderB, sampleFolderC]
      sampleFolderA sampleFolderB sampleFolderC 1 2 3
      rfl rfl rfl rfl rfl (Or.inl rfl)
      (by decide) (by decide) (by decide) (by decide) (by decide) (by decide),
   isMoveAllowed_spec.2 [sampleFolderA] sampleHistory sampleFolderA (Or.inl rfl)⟩

/-- C7: `filterOutNonRecents` returns exactly the records with a non-empty
tag set, unchanged and in their original relative order, followed by a block
of tag-less records that is sorted by descending `lastAccessedTime` (missing
compared as 0), holds at most the configured cap, and consists of top-ranked
tag-less records: together with the leftover tag-less records it is a
permutation of all of them, and each kept record ranks at least as high as
every leftover one. -/
theorem filterOutNonRecents_spec (autocompleteHistorySize : Nat) (sites : List Site) :
    ∃ recents rest : List Site,
      filterOutNonRecents autocompleteHistorySize sites =
        sites.filter (fun site => !site.tags.isEmpty) ++ recents ∧
      recents.length ≤ autocompleteHistorySize ∧
      recents.Pairwise recentRel ∧
      (recents ++ rest).Perm (sites.filter (fun site => site.tags.isEmpty)) ∧
      (∀ s1 ∈ recents, ∀ s2 ∈ rest, recentKey s2 ≤ recentKey s1) := by
  refine
    ⟨(List.insertionSort recentRel
        (sites.filter (fun site => site.tags.isEmpty))).take autocompleteHistorySize,
     (List.insertionSort recentRel
        (sites.filter (fun site => site.tags.isEmpty))).drop autocompleteHistorySize,
     rfl, ?_, ?_, ?_, ?_⟩
  · rw [List.length_take]
    exact min_le_left _ _
  · exact List.Pairwise.sublist (List.take_sublist _ _)
      (List.sorted_insertionSort recentRel _)
  · rw [List.take_append_drop]
    exact List.perm_insertionSort recentRel _
  · have hp : List.Pairwise recentRel
        (List.insertionSort recentRel (sites.filter (fun site => site.tags.isEmpty))) :=
      List.sorted_insertionSort recentRel _
    rw [← List.take_append_drop autocompleteHistorySize
      (List.insertionSort recentRel (sites.filter (fun site => site.tags.isEmpty)))] at hp
    exact (List.pairwise_append.mp hp).2.2

/-- Witness for C7: the theorem at the concrete cap 3 over five tag-less
records with distinct access times plus one bookmark, together with the fully
evaluated result: the bookmark, then the three most recent histories in
descending order. -/
theorem filterOutNonRecents_spec_witness :
    (∃ recents rest : List Site,
      filterOutNonRecents 3 sampleRecentsList =
        sampleRecentsList.filter (fun site => !site.tags.isEmpty) ++ recents ∧
      recents.length ≤ 3 ∧
      recents.Pairwise recentRel ∧
      (recents ++ rest).Perm (sampleRecentsList.filter (fun site => site.tags.isEmpty)) ∧
      (∀ s1 ∈ recents, ∀ s2 ∈ rest, recentKey s2 ≤ recentKey s1)) ∧
    (filterOutNonRecents 3 sampleRecentsList).map (fun site => site.location) =
      [some ("https://x"), some ("https://r4"), some ("https://r5"), some ("https://r2")] :=
  ⟨filterOutNonRecents_spec 3 sampleRecentsList, by decide⟩

/-- C5 counterexample: adding the same folder detail twice with the
BOOKMARK_FOLDER tag and no explicit `folderId` (so no `folderId` collision)
leaves two surviving folders with the same `(parentFolderId, customTitle)`
pair: the duplicate-folder removal of `addSite` only runs when an explicit
truthy `folderId` is supplied, so the claimed at-most-one bound fails. -/
theorem addSite_folder_dedup_cex :
    ¬ (countFoldersWithPair
        (addSite
          (addSite [] ({ parentFolderId := some 2, customTitle := some ("t") } : Site)
            (some Tag.bookmarkFolder) none 0)
          ({ parentFolderId := some 2, customTitle := some ("t") } : Site)
          (some Tag.bookmarkFolder) none 0)
        2 ("t") ≤ 1) := by
  decide

/-- C5 amended: when the two folder additions carry explicit, truthy,
distinct `folderId` values (the import scenario the duplicate-removal branch
of `addSite` is written for), adding two folders with the same
`(parentFolderId, customTitle)` pair leaves at most one surviving folder with
that pair: the second addition strips the first folder of its folder tag,
resets its `parentFolderId` and clears its `customTitle`. Without an explicit
`folderId` no deduplication happens and both folders survive, as the
counterexample shows. -/
theorem addSite_folder_dedup (parentId : Nat) (titleText : String) (f1 f2 now1 now2 : Nat)
    (hf1 : f1 ≠ 0) (hf2 : f2 ≠ 0) (h12 : f1 ≠ f2) (hp1 : parentId ≠ f1) :
    countFoldersWithPair
      (addSite
        (addSite []
          ({ parentFolderId := some parentId, customTitle := some titleText,
             folderId := some f1 } : Site)
          (some Tag.bookmarkFolder) none now1)
        ({ parentFolderId := some parentId, customTitle := some titleText,
           folderId := some f2 } : Site)
        (some Tag.bookmarkFolder) none now2)
      parentId titleText ≤ 1 := by
  have hb1 : ((f1 : Nat) != 0) = true := by simp [hf1]
  have hb2 : ((f2 : Nat) != 0) = true := by simp [hf2]
  have hb12 : ((some f1 : Option Nat) == some f2) = false := by simp [h12]
  have hbp1 : ((some parentId : Option Nat) == some f1) = false := by simp [hp1]
  have hadd : jsSetAdd [] Tag.bookmarkFolder = [Tag.bookmarkFolder] := by decide
  have hrem : jsSetRemove [Tag.bookmarkFolder] Tag.bookmarkFolder = [] := by decide
  simp [addSite, getSiteIndex, isBookmarkFolderTag, jsFindIndex, mergeSiteDetails,
    isBookmarkFolder, isBookmarkTag, natTruthy, strTruthy, jsOrZero,
    removeSite, removeFuel, totalTags, removeSiteF,
    countFoldersWithPair, hb1, hb2, hb12, hbp1, hadd, hrem]

/-- Witness for C5 amended: concrete distinct folder ids 5 and 6. -/
theorem addSite_folder_dedup_witness :
    countFoldersWithPair
      (addSite
        (addSite []
          ({ parentFolderId := some 2, customTitle := some ("t"),
             folderId := some 5 } : Site)
          (some Tag.bookmarkFolder) none 0)
        ({ parentFolderId := some 2, customTitle := some ("t"),
           folderId := some 6 } : Site)
        (some Tag.bookmarkFolder) none 0)
      2 ("t") ≤ 1 :=
  addSite_folder_dedup 2 ("t") 5 6 0 0 (by decide) (by decide) (by decide) (by decide)

theorem addSite_nonFolderTag (sites : List Site) (r : Site) (now : Nat)
    (ht : r.tags.head? ≠ some Tag.bookmarkFolder) :
    addSite sites r none none now =
      (match getSiteIndex sites r r.tags.head? with
       | none => sites ++ [mergeSiteDetails none r r.tags.head? r.folderId now]
       | some i =>
         sites.set i (mergeSiteDetails sites[i]? r r.tags.head? r.folderId now)) := by
  have htb : (r.tags.head? == some Tag.bookmarkFolder) = false := by
    simp [ht]
  cases hidx : getSiteIndex sites r r.tags.head? with
  | none => simp [addSite, htb, hidx]
  | some i => simp [addSite, htb, hidx]

/-- C4 counterexample: for a record whose `location` is the empty string, the
merge drops the falsy location, so a second `add` with the same
`(location, partitionNumber)` identity no longer finds the stored record and
appends instead of updating in place: the list grows. -/
theorem addSite_addSite_identity_cex :
    (addSite (addSite [] ({ location := some (""), tags := [] } : Site) none none 5)
        ({ location := some (""), tags := [] } : Site) none none 6).length ≠
      (addSite [] ({ location := some (""), tags := [] } : Site) none none 5).length := by
  decide

/-- C4 amended: for every non-folder record whose `location` is absent or a
non-empty (truthy) string, `add` followed by `add` with a record sharing the
same `(location, partitionNumber)` identity (partition defaulting to 0)
updates the existing entry in place, leaving the list length unchanged rather
than appending. For an empty-string location the merge drops the location and
the second add appends, as the counterexample shows. -/
theorem addSite_addSite_identity (sites : List Site) (r r2 : Site) (now1 now2 : Nat)
    (ht : r.tags.head? ≠ some Tag.bookmarkFolder)
    (ht2 : r2.tags.head? ≠ some Tag.bookmarkFolder)
    (hloc : r2.location = r.location)
    (hpart : jsOrZero r2.partitionNumber = jsOrZero r.partitionNumber)
    (hloctruthy : r.location = none ∨ ∃ u : String, r.location = some u ∧ u ≠ ("")) :
    (addSite (addSite sites r none none now1) r2 none none now2).length =
      (addSite sites r none none now1).length := by
  have hft : isBookmarkFolderTag r.tags.head? = false := by
    simp [isBookmarkFolderTag, ht]
  have hft2 : isBookmarkFolderTag r2.tags.head? = false := by
    simp [isBookmarkFolderTag, ht2]
  have hgs1 : getSiteIndex sites r r.tags.head? =
      jsFindIndex sites (fun site => site.location == r.location &&
        jsOrZero site.partitionNumber == jsOrZero r.partitionNumber) := by
    simp [getSiteIndex, hft]
  have hgs2 : ∀ L : List Site, getSiteIndex L r2 r2.tags.head? =
      jsFindIndex L (fun site => site.location == r.location &&
        jsOrZero site.partitionNumber == jsOrZero r.partitionNumber) := by
    intro L
    simp [getSiteIndex, hft2, hloc, hpart]
  have hmloc : ∀ (old : Option Site) (now : Nat),
      (mergeSiteDetails old r r.tags.head? r.folderId now).location = r.location := by
    intro old now
    rcases hloctruthy with h | ⟨u, hu, hune⟩
    · simp [mergeSiteDetails, h, strTruthy]
    · simp [mergeSiteDetails, hu, strTruthy, hune]
  have hmpart_none : ∀ now : Nat,
      (mergeSiteDetails none r r.tags.head? r.folderId now).partitionNumber
        = r.partitionNumber := by
    intro now
    cases hr : r.partitionNumber <;> simp [mergeSiteDetails, hr]
  have hmpart_some : ∀ (s0 : Site) (now : Nat),
      jsOrZero s0.partitionNumber = jsOrZero r.partitionNumber →
      jsOrZero (mergeSiteDetails (some s0) r r.tags.head? r.folderId now).partitionNumber
        = jsOrZero r.partitionNumber := by
    intro s0 now hs0
    cases hr : r.partitionNumber with
    | some p => simp [mergeSiteDetails, hr]
    | none =>
      rw [hr] at hs0
      cases hs0p : s0.partitionNumber with
      | none => simp [mergeSiteDetails, hr, hs0p, natTruthy, jsOrZero]
      | some q =>
        rw [hs0p] at hs0
        have hq : q = 0 := by simpa [jsOrZero] using hs0
        subst hq
        simp [mergeSiteDetails, hr, hs0p, natTruthy, jsOrZero]
  have hpred_none : ∀ now : Nat,
      ((fun site => site.location == r.location &&
        jsOrZero site.partitionNumber == jsOrZero r.partitionNumber)
          (mergeSiteDetails none r r.tags.head? r.folderId now)) = true := by
    intro now
    simp only [hmloc none now, hmpart_none now]
    simp
  have hpred_some : ∀ (s0 : Site) (now : Nat),
      jsOrZero s0.partitionNumber = jsOrZero r.partitionNumber →
      ((fun site => site.location == r.location &&
        jsOrZero site.partitionNumber == jsOrZero r.partitionNumber)
          (mergeSiteDetails (some s0) r r.tags.head? r.folderId now)) = true := by
    intro s0 now hs0
    simp only [hmloc (some s0) now, hmpart_some s0 now hs0]
    simp
  have hbody := addSite_nonFolderTag sites r now1 ht
  cases hidx : jsFindIndex sites (fun site => site.location == r.location &&
      jsOrZero site.partitionNumber == jsOrZero r.partitionNumber) with
  | none =>
    simp only [hgs1, hidx] at hbody
    have hfind2 : jsFindIndex
        (sites ++ [mergeSiteDetails none r r.tags.head? r.folderId now1])
        (fun site => site.location == r.location &&
          jsOrZero site.partitionNumber == jsOrZero r.partitionNumber) = some sites.length :=
      jsFindIndex_append_singleton _ _ _ hidx (hpred_none now1)
    have hbody2 := addSite_nonFolderTag
      (sites ++ [mergeSiteDetails none r r.tags.head? r.folderId now1]) r2 now2 ht2
    simp only [hgs2, hfind2] at hbody2
    rw [hbody, hbody2]
    simp
  | some i =>
    obtain ⟨s0, hs0get, hs0p⟩ := jsFindIndex_some_get _ _ _ hidx
    have hs0part : jsOrZero s0.partitionNumber = jsOrZero r.partitionNumber := by
      simp at hs0p
      exact hs0p.2
    simp only [hgs1, hidx, hs0get] at hbody
    have hfind2 : jsFindIndex
        (sites.set i (mergeSiteDetails (some s0) r r.tags.head? r.folderId now1))
        (fun site => site.location == r.location &&
          jsOrZero site.partitionNumber == jsOrZero r.partitionNumber) = some i :=
      jsFindIndex_set_self _ _ _ _ hidx (hpred_some s0 now1 hs0part)
    have hbody2 := addSite_nonFolderTag
      (sites.set i (mergeSiteDetails (some s0) r r.tags.head? r.folderId now1)) r2 now2 ht2
    simp only [hgs2, hfind2] at hbody2
    rw [hbody, hbody2]
    simp

/-- Witness for C4 amended: adding the same history record twice keeps the
list at one entry. -/
theorem addSite_addSite_identity_witness :
    (addSite (addSite [] sampleHistory none none 5) sampleHistory none none 6).length =
      (addSite [] sampleHistory none none 5).length :=
  addSite_addSite_identity [] sampleHistory sampleHistory 5 6
    (by decide) (by decide) rfl rfl
    (Or.inr ⟨("https://y"), rfl, by decide⟩)

end SiteUtil
